import Mathlib

/-!
Verification of the matrix utilities in `Matrices_5_6.ipynb`: a pattern
search `find_submatrix` that locates a 2-D pattern inside the trailing two
axes of an N-dimensional numpy array, and `rot_submatrix` which rotates the
first matched block in place by a quarter-turn multiple.

N-dimensional numpy arrays are embedded as the nested inductive `NDArray`.
numpy-specific behaviours that the code relies on are modelled explicitly:
slicing clips to the array bounds, elementwise `==` between arrays
broadcasts (and yields an overall non-match when the shapes are not
broadcast-compatible, as numpy's comparison of incompatible shapes yields
a scalar False), and slice assignment broadcasts the source block and
fails when shapes cannot broadcast.  Python exceptions are modelled with
`Except Unit`; the in-place mutation of `rot_submatrix` is modelled by
explicit state passing over a `RotState` record holding both caller-owned
arrays, so that frame properties (which array is written) are visible.
-/

/-- An N-dimensional array: a numeric scalar or a list of subarrays.
Rectangularity is not enforced by the type; numpy-built arrays are always
rectangular and the claims are read over such arrays. -/
inductive NDArray (α : Type) where
  | scalar : α → NDArray α
  | node : List (NDArray α) → NDArray α

namespace NDArray

/-- Number of dimensions (`ndarray.ndim`), read off the first-child chain;
this agrees with numpy on every rectangular array. -/
def ndim {α : Type} : NDArray α → Nat
  | .scalar _ => 0
  | .node [] => 1
  | .node (x :: _) => 1 + ndim x

/-- Number of rows (`shape[0]`) of a 2-D array. -/
def numRows {α : Type} : NDArray α → Nat
  | .node l => l.length
  | .scalar _ => 0

/-- Number of columns (`shape[1]`) of a 2-D array. -/
def numCols {α : Type} : NDArray α → Nat
  | .node (.node r :: _) => r.length
  | _ => 0

/-- The element `a[0][0]` of a 2-D array, `none` when the indexing would
raise an IndexError (empty array or empty first row). -/
def corner00 {α : Type} : NDArray α → Option α
  | .node (.node (.scalar v :: _) :: _) => some v
  | _ => none

mutual
/-- `np.transpose(np.where(a == v))`: the coordinates of all elements equal
to `v`, in row-major order. -/
def whereEq {α : Type} [DecidableEq α] (v : α) : NDArray α → List (List Nat)
  | .scalar a => if a = v then [[]] else []
  | .node l => whereEqKids v l 0

/-- Helper of `whereEq`: scan the children of a node, prefixing each child
coordinate with the child's index. -/
def whereEqKids {α : Type} [DecidableEq α] (v : α) : List (NDArray α) → Nat → List (List Nat)
  | [], _ => []
  | c :: t, i => ((whereEq v c).map (fun cs => i :: cs)) ++ whereEqKids v t (i + 1)
end

mutual
/-- Total number of constructors of an array, an executable size measure
used as a fuel bound. -/
def sz {α : Type} : NDArray α → Nat
  | .scalar _ => 1
  | .node l => 1 + szList l

/-- Sum of the sizes of a list of arrays. -/
def szList {α : Type} : List (NDArray α) → Nat
  | [] => 0
  | c :: t => sz c + szList t
end

/-- Fuelled worker for `npAllEq`: numpy broadcast comparison of two
arrays.  When one side has more dimensions the other is compared against
each of its members; at equal dimensionality equal-length levels are
zipped and a length-1 level is broadcast; any other length combination is
broadcast-incompatible and compares false.  Every recursive call descends
into a member of one of the two arrays, so `sz a + sz b` steps can never
be exhausted and the fuel-out arm is unreachable from `npAllEq`. -/
def npAllEqF {α : Type} [DecidableEq α] : Nat → NDArray α → NDArray α → Bool
  | _, .scalar a, .scalar b => decide (a = b)
  | 0, _, _ => false
  | n+1, .scalar a, .node lb => lb.all (fun c => npAllEqF n (.scalar a) c)
  | n+1, .node la, .scalar b => la.all (fun c => npAllEqF n c (.scalar b))
  | n+1, .node la, .node lb =>
    if ndim (NDArray.node la) > ndim (NDArray.node lb) then
      la.all (fun c => npAllEqF n c (.node lb))
    else if ndim (NDArray.node lb) > ndim (NDArray.node la) then
      lb.all (fun c => npAllEqF n (.node la) c)
    else if la.length = lb.length then (la.zip lb).all (fun p => npAllEqF n p.1 p.2)
    else match la, lb with
      | [x], ys => ys.all (fun c => npAllEqF n x c)
      | xs, [y] => xs.all (fun c => npAllEqF n c y)
      | _, _ => false

/-- `np.all(a == b)` with numpy broadcasting: `true` iff the two arrays
are broadcast-compatible and every pair of broadcast elements is equal.
When the shapes are incompatible numpy's `==` evaluates to the scalar
`False`, so `np.all` gives `False`; this function returns `false` there
as well. -/
def npAllEq {α : Type} [DecidableEq α] (a b : NDArray α) : Bool :=
  npAllEqF (sz a + sz b) a b

/-- numpy basic slicing `a[s0:e0, s1:e1, ...]`: slices clip to the array
bounds (a stop past the end keeps only the available elements, never an
error), one `(start, stop)` pair per axis. -/
def getSlice {α : Type} : NDArray α → List (Nat × Nat) → NDArray α
  | x, [] => x
  | .scalar a, _ :: _ => .scalar a
  | .node l, (s, e) :: rest => .node (((l.drop s).take (e - s)).map (fun c => getSlice c rest))

/-- Collect a list of optional values, failing if any member fails. -/
def seqOption {β : Type} : List (Option β) → Option (List β)
  | [] => some []
  | none :: _ => none
  | some b :: t => (seqOption t).map (fun r => b :: r)

/-- numpy slice assignment `a[s0:e0, s1:e1, ...] = src`: the source is
broadcast into the selected region (reused along axes where it has no
dimension or extent 1); `none` models the ValueError raised when the
source cannot be broadcast to the region's shape. -/
def setSlice {α : Type} : NDArray α → List (Nat × Nat) → NDArray α → Option (NDArray α)
  | .scalar _, [], .scalar b => some (.scalar b)
  | .scalar _, [], .node _ => none
  | .node l, [], _ => some (.node l)
  | .scalar a, _ :: _, _ => some (.scalar a)
  | .node l, (s, e) :: rest, src =>
    let stop := min e l.length
    let ext := stop - s
    let sel := (l.drop s).take ext
    let bsrc : Option (List (NDArray α)) :=
      if ndim src > rest.length + 1 then none
      else if ndim src = rest.length + 1 then
        match src with
        | .node ls =>
          if ls.length = ext then some ls
          else if ls.length = 1 then some (List.replicate ext (ls.headD (.node [])))
          else none
        | .scalar _ => none
      else some (List.replicate ext src)
    match bsrc with
    | none => none
    | some srcs =>
      match seqOption (List.zipWith (fun c sc => setSlice c rest sc) sel srcs) with
      | none => none
      | some written => some (.node (l.take s ++ written ++ l.drop stop))

/-- Build a 1-D array from a list of scalars. -/
def ofList1 {α : Type} (l : List α) : NDArray α := .node (l.map NDArray.scalar)

/-- Build a 2-D array from a list of rows. -/
def ofMat {α : Type} (m : List (List α)) : NDArray α :=
  .node (m.map (fun r => .node (r.map NDArray.scalar)))

/-- Build a 3-D array from a list of 2-D slices. -/
def of3 {α : Type} (t : List (List (List α))) : NDArray α := .node (t.map ofMat)

/-- Read a 1-D array back as a list of scalars. -/
def toRow {α : Type} [Inhabited α] : NDArray α → List α
  | .node cs => cs.map (fun c => match c with | .scalar v => v | .node _ => default)
  | .scalar _ => []

/-- Read a 2-D array back as a list of rows. -/
def toMat {α : Type} [Inhabited α] : NDArray α → List (List α)
  | .node rows => rows.map toRow
  | .scalar _ => []

end NDArray

open NDArray

/-- Result of `find_submatrix`: either the bare empty tuple `tuple()`
returned by the dimension guard, or the pair
`(location_list, nslice_list)` of matching corner coordinates and their
per-axis `(start, stop)` slice ranges. -/
inductive FindResult (α : Type) where
  | emptyTuple : FindResult α
  | found : List (List Nat) → List (List (Nat × Nat)) → FindResult α

/-- The slice tuple `nslice` built for a candidate coordinate `c`
(`len(c) ≥ 2`): extent-1 slices on every axis but the last two, then
`slice(c[-2], c[-2]+p)` and `slice(c[-1], c[-1]+q)` where `(p, q)` is the
pattern's shape. -/
def buildSlice (c : List Nat) (p q : Nat) : List (Nat × Nat) :=
  ((c.take (c.length - 2)).map (fun i => (i, i + 1))) ++
    [(c.getD (c.length - 2) 0, c.getD (c.length - 2) 0 + p),
     (c.getD (c.length - 1) 0, c.getD (c.length - 1) 0 + q)]

/-- `find_submatrix(big_mat, small_mat)`: returns the empty tuple when the
pattern has more dimensions than the array or is not 2-dimensional;
otherwise takes every coordinate whose value equals `small_mat[0][0]` as a
candidate corner, slices the array there to a pattern-sized region
(clipped at the bounds, as numpy slicing does) and records the candidates
for which `np.all(test_mat == small_mat)` holds, together with their
slices.  `Except.error` models the IndexError raised by `small_mat[0][0]`
on a pattern with an empty first row. -/
def find_submatrix {α : Type} [DecidableEq α] (big_mat small_mat : NDArray α) :
    Except Unit (FindResult α) :=
  if ndim small_mat > ndim big_mat ∨ ndim small_mat ≠ 2 then .ok .emptyTuple
  else
    match corner00 small_mat with
    | none => .error ()
    | some v =>
      let p := numRows small_mat
      let q := numCols small_mat
      let candidates := whereEq v big_mat
      let hits := candidates.filter
        (fun c => npAllEq (getSlice big_mat (buildSlice c p q)) small_mat)
      .ok (.found hits (hits.map (fun c => buildSlice c p q)))

/-- `np.transpose` on a 2-D matrix given as a list of rows: column `j` of
the result collects entry `j` of every row.  Agrees with numpy on every
rectangular matrix. -/
def transposeL {α : Type} [Inhabited α] (m : List (List α)) : List (List α) :=
  (List.range (m.headD []).length).map (fun j => m.map (fun r => r.getD j default))

/-- `rotate_sqcw(mat)`: 90° clockwise rotation, `np.flipud` (reverse the
rows) followed by transpose. -/
def rotate_sqcw {α : Type} [Inhabited α] (mat : List (List α)) : List (List α) :=
  transposeL mat.reverse

/-- `rotate_sqcc(mat)`: 90° counter-clockwise rotation, `np.fliplr`
(reverse each row) followed by transpose. -/
def rotate_sqcc {α : Type} [Inhabited α] (mat : List (List α)) : List (List α) :=
  transposeL (mat.map List.reverse)

/-- `rotate_180(mat)`: `np.flip` reverses every axis, so both the row
order and each row. -/
def rotate_180 {α : Type} (mat : List (List α)) : List (List α) :=
  mat.reverse.map List.reverse

/-- The caller-owned mutable arguments of `rot_submatrix`: the searched
array and the pattern, both passed by reference and threaded explicitly
here so that which one is written is visible in the model. -/
structure RotState (α : Type) where
  big : NDArray α
  small : NDArray α

/-- The write-back step `big_mat[tuple(nslice[0])] = rot_small_mat`
followed by `return big_mat`: `Except.error` models the ValueError numpy
raises when the rotated block cannot be broadcast into the region. -/
def writeStep {α : Type} [DecidableEq α] (s : RotState α) (sl : List (Nat × Nat))
    (m : List (List α)) : Except Unit (Option (NDArray α)) × RotState α :=
  match setSlice s.big sl (ofMat m) with
  | none => (.error (), s)
  | some b => (.ok (some b), ⟨b, s.small⟩)

/-- `rot_submatrix(big_mat, small_mat, increment)` over the explicit state
of its two array arguments.  The first component is the Python return
value (`none` is Python's `None`, `Except.error` an uncaught exception),
the second the final contents of the two arrays.  Mirrors the source:
return `None` for a non-2-D or non-square pattern; look up
`find_submatrix(big_mat, small_mat)[1]` (an IndexError when the search
returned the empty tuple); if no slice was found fall through returning
`None`; otherwise rotate by `increment` quarter-turns: a multiple of 4
leaves the array as is, an even remainder writes the 180° rotation, and
odd increments write the clockwise rotation when `increment % 4 == 1`
(Python floor modulo) and the counter-clockwise one when
`increment % 4 == 3`. -/
def rot_submatrix {α : Type} [DecidableEq α] [Inhabited α] (s : RotState α)
    (increment : Int) : Except Unit (Option (NDArray α)) × RotState α :=
  if ndim s.small ≠ 2 then (.ok none, s)
  else if numRows s.small ≠ numCols s.small then (.ok none, s)
  else
    match find_submatrix s.big s.small with
    | .error _ => (.error (), s)
    | .ok .emptyTuple => (.error (), s)
    | .ok (.found _ nslice) =>
      match nslice with
      | [] => (.ok none, s)
      | sl0 :: _ =>
        if increment.natAbs % 4 = 0 then (.ok (some s.big), s)
        else if increment.natAbs % 2 = 0 then writeStep s sl0 (rotate_180 (toMat s.small))
        else if increment % 4 = 1 then writeStep s sl0 (rotate_sqcw (toMat s.small))
        else if increment % 4 = 3 then writeStep s sl0 (rotate_sqcc (toMat s.small))
        else (.ok none, s)

/-!
Concrete arrays: the notebook's reference inputs and the edge-case inputs
exercising the trailing-edge behaviour of the search.
-/

/-- The notebook's reference 2×3×4 test array. -/
def refBig : NDArray Int :=
  of3 [[[5,2,5,0],[4,5,6,0],[7,8,9,0]],[[0,0,0,0],[1,5,6,0],[1,8,9,5]]]

/-- The notebook's reference 2×2 pattern. -/
def refSmall : NDArray Int := ofMat [[5,6],[8,9]]

/-- The reference pair as the state of `rot_submatrix`. -/
def refState : RotState Int := ⟨refBig, refSmall⟩

/-- The reference array after rotating the first matched block clockwise:
rows 1–2, columns 1–2 of the first leading slice hold `[[8,5],[9,6]]`. -/
def refBigCw : NDArray Int :=
  of3 [[[5,2,5,0],[4,8,5,0],[7,9,6,0]],[[0,0,0,0],[1,5,6,0],[1,8,9,5]]]

/-- A 2×1 array whose bottom element also starts a candidate corner. -/
def clipBig : NDArray Int := ofMat [[5],[5]]

/-- A 2×1 pattern equal to `clipBig`. -/
def clipSmall : NDArray Int := ofMat [[5],[5]]

/-- A 2×2 array whose bottom row matches the top-left of `edgeSmall`. -/
def edgeBig : NDArray Int := ofMat [[0,0],[5,5]]

/-- A constant 2×2 pattern. -/
def edgeSmall : NDArray Int := ofMat [[5,5],[5,5]]

/-- A 2×2 array containing no `9`, so `noSmall` occurs nowhere in it. -/
def noBig : NDArray Int := ofMat [[1,2],[3,4]]

/-- A square 2-D pattern absent from `noBig`. -/
def noSmall : NDArray Int := ofMat [[9,9],[9,9]]

/-- C1: the claim fails on the code.  On the 2×1 array `[[5],[5]]` with the
2×1 pattern `[[5],[5]]`, `find_submatrix` also records the corner `(1,0)`
whose slice `rows 1:3, cols 0:1` clips to a single row: the extracted
region is 1×1 while the pattern is 2×1, so the region is not elementwise
equal (same shape) to the pattern — numpy broadcasting made the comparison
succeed. -/
theorem find_submatrix_records_clipped_region :
    find_submatrix clipBig clipSmall =
      .ok (.found [[0, 0], [1, 0]] [[(0, 2), (0, 1)], [(1, 3), (0, 1)]]) ∧
    numRows (getSlice clipBig [(1, 3), (0, 1)]) = 1 ∧ numRows clipSmall = 2 :=
  ⟨rfl, rfl, rfl⟩

/-- C2: the claim fails on the code.  On the 2×2 array `[[0,0],[5,5]]` with
the constant 2×2 pattern, both candidate corners `(1,0)` and `(1,1)` sit on
the bottom edge, their regions `rows 1:3` extend past the 2 rows of the
array, yet both are recorded as placements: the clipped region broadcast
against the pattern compares equal. -/
theorem find_submatrix_oob_candidate_recorded :
    find_submatrix edgeBig edgeSmall =
      .ok (.found [[1, 0], [1, 1]] [[(1, 3), (0, 2)], [(1, 3), (1, 3)]]) ∧
    numRows edgeBig < 3 :=
  ⟨rfl, by decide⟩

/-- C4: the claim fails on the code.  On the 1-dimensional array `[7]`
with the square 2-D pattern `[[7,7],[7,7]]`, `find_submatrix` returns the
empty tuple, and `rot_submatrix`'s subscript `find_submatrix(...)[1]`
raises an IndexError instead of returning. -/
theorem rot_submatrix_raises_on_low_dim_array :
    rot_submatrix (⟨ofList1 [(7 : Int)], ofMat [[7, 7], [7, 7]]⟩ : RotState Int) 1 =
      (.error (), ⟨ofList1 [(7 : Int)], ofMat [[7, 7], [7, 7]]⟩) :=
  rfl

/-- C6: on the reference array and pattern with `turns = 1`,
`rot_submatrix` rewrites exactly the region of the first placement (rows
1–2, columns 1–2 of the first leading slice) to `[[8,5],[9,6]]`, the 90°
clockwise rotation of the pattern, leaves every other element unchanged,
and returns the mutated array. -/
theorem rot_submatrix_ref_turns1 :
    rot_submatrix refState 1 = (.ok (some refBigCw), ⟨refBigCw, refSmall⟩) :=
  rfl

/-- C3 (counterexample): when the pattern occurs nowhere, the Python
function falls off the end and returns `None`; the array is untouched and
no error is raised, but the return value is not the array. -/
theorem rot_submatrix_no_match_returns_none :
    rot_submatrix (⟨noBig, noSmall⟩ : RotState Int) 1 = (.ok none, ⟨noBig, noSmall⟩) ∧
    (Except.ok none : Except Unit (Option (NDArray Int))) ≠ .ok (some noBig) :=
  ⟨rfl, by simp⟩

/-- The pattern component of the state is untouched by the write-back
step, which assigns into `big` only. -/
theorem writeStep_small {α : Type} [DecidableEq α] (s : RotState α)
    (sl : List (Nat × Nat)) (m : List (List α)) :
    ((writeStep s sl m).2).small = s.small := by
  unfold writeStep
  split <;> rfl

/-- C10: `rot_submatrix` never modifies the pattern argument: on every
input and every number of turns, the final state holds the pattern with
exactly its original elements (the rotation helpers are pure and the only
write targets the searched array). -/
theorem rot_submatrix_pattern_unchanged {α : Type} [DecidableEq α] [Inhabited α]
    (s : RotState α) (t : Int) : ((rot_submatrix s t).2).small = s.small := by
  unfold rot_submatrix
  repeat' split
  all_goals first | rfl | apply writeStep_small

/-- C8: whenever the pattern is not 2-dimensional or has more dimensions
than the array, `find_submatrix` returns the empty result and raises no
error. -/
theorem find_submatrix_bad_pattern_empty {α : Type} [DecidableEq α]
    (big small : NDArray α) (h : ndim small ≠ 2 ∨ ndim small > ndim big) :
    find_submatrix big small = .ok .emptyTuple := by
  unfold find_submatrix
  rw [if_pos h.symm]

/-- Witness for C8 at a 1-dimensional pattern. -/
theorem find_submatrix_bad_pattern_empty_witness :
    find_submatrix (ofMat [[(1 : Int)]]) (ofList1 [(1 : Int)]) = .ok .emptyTuple :=
  find_submatrix_bad_pattern_empty _ _ (by decide)

/-- C3 (amended): when the search finds no placement, `rot_submatrix`
leaves both arrays untouched and raises no error, but its return value is
`None`, not the array. -/
theorem rot_submatrix_no_placement {α : Type} [DecidableEq α] [Inhabited α]
    (s : RotState α) (t : Int) (locs : List (List Nat))
    (hf : find_submatrix s.big s.small = .ok (.found locs [])) :
    rot_submatrix s t = (.ok none, s) := by
  unfold rot_submatrix
  by_cases e2 : ndim s.small ≠ 2
  · rw [if_pos e2]
  · rw [if_neg e2]
    by_cases esq : numRows s.small ≠ numCols s.small
    · rw [if_pos esq]
    · rw [if_neg esq]
      simp only [hf]

/-- Witness for C3 (amended) on a pattern that occurs nowhere. -/
theorem rot_submatrix_no_placement_witness :
    rot_submatrix (⟨noBig, noSmall⟩ : RotState Int) 5 = (.ok none, ⟨noBig, noSmall⟩) :=
  rot_submatrix_no_placement _ 5 [] rfl

/-- C5: whenever `turns` is a multiple of 4 the array contents are left
byte-for-byte identical (no branch writes), and on the reference input
with `turns = 16` the function returns the array unchanged. -/
theorem rot_submatrix_mult4_id :
    (∀ (α : Type) [DecidableEq α] [Inhabited α] (s : RotState α) (t : Int),
        t % 4 = 0 → (rot_submatrix s t).2 = s) ∧
    rot_submatrix refState 16 = (.ok (some refBig), refState) := by
  refine ⟨?_, rfl⟩
  intro α _ _ s t ht
  have h4 : t.natAbs % 4 = 0 := by omega
  unfold rot_submatrix
  repeat' split
  all_goals rfl

/-- Witness for C5 at `turns = 8`. -/
theorem rot_submatrix_mult4_id_witness :
    (rot_submatrix refState 8).2 = refState :=
  rot_submatrix_mult4_id.1 Int refState 8 (by decide)

/-- C9: for odd `turns` the remainder is taken with Python's non-negative
floor modulo: when `turns % 4 = 1` the block written at the first
placement is the clockwise rotation of the pattern, and when
`turns % 4 = 3` it is the counter-clockwise one. -/
theorem rot_submatrix_odd_turns {α : Type} [DecidableEq α] [Inhabited α]
    (s : RotState α) (t : Int) (locs : List (List Nat))
    (sl : List (Nat × Nat)) (tl : List (List (Nat × Nat)))
    (h2 : ndim s.small = 2) (hsq : numRows s.small = numCols s.small)
    (hf : find_submatrix s.big s.small = .ok (.found locs (sl :: tl)))
    (hodd : t % 2 ≠ 0) :
    (t % 4 = 1 → rot_submatrix s t = writeStep s sl (rotate_sqcw (toMat s.small))) ∧
    (t % 4 = 3 → rot_submatrix s t = writeStep s sl (rotate_sqcc (toMat s.small))) := by
  have e2 : ¬(ndim s.small ≠ 2) := by simp [h2]
  have esq : ¬(numRows s.small ≠ numCols s.small) := by simp [hsq]
  have h4 : ¬(t.natAbs % 4 = 0) := by omega
  have h2n : ¬(t.natAbs % 2 = 0) := by omega
  constructor <;> intro h1
  · unfold rot_submatrix
    rw [if_neg e2, if_neg esq]
    simp only [hf]
    rw [if_neg h4, if_neg h2n, if_pos h1]
  · have hne1 : ¬(t % 4 = 1) := by omega
    unfold rot_submatrix
    rw [if_neg e2, if_neg esq]
    simp only [hf]
    rw [if_neg h4, if_neg h2n, if_neg hne1, if_pos h1]

/-- Witness for C9 at `turns = -3` (odd, `-3 % 4 = 1`, so clockwise). -/
theorem rot_submatrix_odd_turns_witness :
    rot_submatrix refState (-3) =
      writeStep refState [(0, 1), (1, 3), (1, 3)] (rotate_sqcw (toMat refSmall)) :=
  (rot_submatrix_odd_turns refState (-3) [[0, 1, 1], [1, 1, 1]]
      [(0, 1), (1, 3), (1, 3)] [[(1, 2), (1, 3), (1, 3)]]
      rfl rfl rfl (by decide)).1 (by decide)

/-- The first row of a nonempty matrix whose rows all have length `k` has
length `k`. -/
theorem rect_headD_length {α : Type} (m : List (List α)) (k : Nat)
    (hm : ∀ r ∈ m, r.length = k) (hne : m ≠ []) :
    (m.headD []).length = k := by
  obtain ⟨a, t, rfl⟩ := List.exists_cons_of_ne_nil hne
  exact hm a (List.mem_cons_self a t)

/-- Length of the transpose: the length of the first row. -/
theorem transposeL_length {α : Type} [Inhabited α] (m : List (List α)) :
    (transposeL m).length = (m.headD []).length := by
  simp [transposeL]

/-- Row `j` of the transpose collects entry `j` of every row. -/
theorem transposeL_getElem {α : Type} [Inhabited α] (m : List (List α)) (j : Nat)
    (h : j < (transposeL m).length) :
    (transposeL m)[j] = m.map (fun r => r.getD j default) := by
  unfold transposeL at h ⊢
  rw [List.getElem_map, List.getElem_range]

/-- Reversing every row of the clockwise rotation gives the plain
transpose: `transpose ∘ flipud` composed with row reversal cancels the
`flipud`. -/
theorem rotate_sqcw_map_reverse {α : Type} [Inhabited α] (m : List (List α))
    (hm : ∀ r ∈ m, r.length = m.length) (hne : m ≠ []) :
    (rotate_sqcw m).map List.reverse = transposeL m := by
  have hrev : ∀ r ∈ m.reverse, r.length = m.length := by
    intro r hr
    exact hm r (List.mem_reverse.mp hr)
  have hrne : m.reverse ≠ [] := by
    simpa using hne
  have hk : (m.reverse.headD []).length = m.length :=
    rect_headD_length m.reverse m.length hrev hrne
  have hh : (m.headD []).length = m.length :=
    rect_headD_length m m.length hm hne
  unfold rotate_sqcw transposeL
  rw [hk, hh, List.map_map]
  refine List.map_congr_left (fun j hj => ?_)
  simp [Function.comp, List.map_reverse]

/-- Transposing twice restores a nonempty square matrix. -/
theorem transposeL_transposeL {α : Type} [Inhabited α] (m : List (List α))
    (hm : ∀ r ∈ m, r.length = m.length) :
    transposeL (transposeL m) = m := by
  by_cases hne : m = []
  · subst hne
    rfl
  · have hh : (m.headD []).length = m.length :=
      rect_headD_length m m.length hm hne
    have hlen : (transposeL m).length = m.length := by
      rw [transposeL_length, hh]
    have hmne : 0 < m.length := List.length_pos.mpr hne
    have htne : transposeL m ≠ [] := by
      intro h0
      rw [h0] at hlen
      simp at hlen
      omega
    have hrowsT : ∀ r ∈ transposeL m, r.length = m.length := by
      intro r hr
      obtain ⟨j, hj, rfl⟩ := List.getElem_of_mem hr
      rw [transposeL_getElem]
      simp
    have hhT : ((transposeL m).headD []).length = m.length :=
      rect_headD_length (transposeL m) m.length hrowsT htne
    apply List.ext_getElem
    · rw [transposeL_length, hhT]
    · intro i h1 h2
      rw [transposeL_getElem]
      apply List.ext_getElem
      · simp only [List.length_map, hlen]
        exact (hm m[i] (List.getElem_mem h2)).symm
      · intro j hj1 hj2
        have hjm : j < (transposeL m).length := by
          simpa using hj1
        have him : i < m.length := h2
        rw [List.getElem_map, transposeL_getElem m j hjm]
        have hmi : i < (m.map (fun r => r.getD j default)).length := by
          simpa using him
        rw [List.getD_eq_getElem _ _ hmi, List.getElem_map]
        exact List.getD_eq_getElem _ _ hj2

/-- C7: a clockwise quarter-turn followed by a counter-clockwise
quarter-turn restores every square matrix. -/
theorem rotate_cw_then_ccw {α : Type} [Inhabited α] (m : List (List α))
    (hm : ∀ r ∈ m, r.length = m.length) :
    rotate_sqcc (rotate_sqcw m) = m := by
  by_cases hne : m = []
  · subst hne
    rfl
  · unfold rotate_sqcc
    rw [rotate_sqcw_map_reverse m hm hne, transposeL_transposeL m hm]

/-- Witness for C7 on the notebook's 2×2 pattern. -/
theorem rotate_cw_then_ccw_witness :
    rotate_sqcc (rotate_sqcw [[(5 : Int), 6], [8, 9]]) = [[5, 6], [8, 9]] :=
  rotate_cw_then_ccw _ (by decide)
